import Mathlib

/-!
Verification of the pi-mono codex tool integration and the Codex CLI
credential helpers.

The development shallowly embeds the TypeScript sources:
* `packages/coding-agent/examples/custom-tools/codex-experimental/index.ts`
  (subprocess execution: settlement guard, line reassembly, JSONL event
  classification, final result synthesis);
* the Codex CLI auth helpers (`getCodexCliAuth` in a refreshing and a
  read-only variant, `refreshTokens`, `extractJwtExpMs`, `writeJsonFile`).

JavaScript values parsed from JSON are modelled by the inductive `Json`;
platform builtins (`JSON.parse`, `Buffer` base64 decoding, `JSON.stringify`,
`path.dirname`) are passed in as function parameters, while every piece of
logic written in the repository itself is translated into an executable
Lean definition.
-/

namespace PiMono

/-- A JSON value as produced by `JSON.parse`.  Numbers are modelled as
integers (every number the repository inspects is an integral epoch second
or exit code). -/
inductive Json where
  | null : Json
  | bool (b : Bool) : Json
  | num (n : Int) : Json
  | str (s : String) : Json
  | arr (elems : List Json) : Json
  | obj (fields : List (String × Json)) : Json

/-- Property lookup on a JS object literal: first binding wins (keys produced
by `JSON.parse` are unique). -/
def lookupField : List (String × Json) → String → Option Json
  | [], _ => none
  | (k', v) :: rest, k => if k' = k then some v else lookupField rest k

/-- `x?.k` / `x.k` on an arbitrary JS value: property access on a non-object
yields `undefined`. -/
def jGet : Json → String → Option Json
  | .obj fields, k => lookupField fields k
  | _, _ => none

/-- `isRecord` from the auth helpers: a non-null, non-array object. -/
def isRecord : Json → Bool
  | .obj _ => true
  | _ => false

/-- JS property assignment `o[k] = v`: an existing key keeps its position and
gets the new value, a fresh key is appended at the end. -/
def setField : List (String × Json) → String → Json → List (String × Json)
  | [], k, v => [(k, v)]
  | (k', v') :: rest, k, v =>
    if k' = k then (k, v) :: rest else (k', v') :: setField rest k v

/-- Whitespace as recognised by JS `String.prototype.trim` (the code only
ever tests `s.trim()` for truthiness, so only blankness matters). -/
def jsIsWs (c : Char) : Bool :=
  c = ' ' || c = '\t' || c = '\n' || c = '\r' ||
  c = Char.ofNat 0x0B || c = Char.ofNat 0x0C ||
  c = Char.ofNat 0xA0 || c = Char.ofNat 0xFEFF

/-- `s.trim() === ""`: every character is whitespace. -/
def jsIsBlank (s : String) : Bool :=
  s.toList.all jsIsWs

/-- `getOptionalString(obj, key)`: the value must be a string whose trim is
non-empty. -/
def getOptionalString (fields : List (String × Json)) (key : String) :
    Option String :=
  match lookupField fields key with
  | some (.str s) => if jsIsBlank s then none else some s
  | _ => none

/-! ## Settlement guard (`settled` / `safeResolve` / `safeReject`)

`execute` creates one promise; `safeResolve` and `safeReject` both check and
set the shared boolean `settled` before calling the underlying
`resolve`/`reject`.  A settlement attempt is any value passed to one of
them; the state records the flag together with the list of values that
actually reached `resolve`/`reject`. -/

/-- A single settlement attempt: the value handed to `safeResolve` or the
error handed to `safeReject`. -/
inductive SettleAttempt (α β : Type) where
  | resolve (v : α) : SettleAttempt α β
  | reject (e : β) : SettleAttempt α β
deriving DecidableEq

/-- The promise-side state of one `execute` invocation: the `settled` flag
and the settlement attempts that actually went through to the promise. -/
structure SettleState (α β : Type) where
  settled : Bool
  delivered : List (SettleAttempt α β)
deriving DecidableEq

/-- `safeResolve`/`safeReject`: if `settled` is still false, set it and
deliver the attempt; otherwise do nothing. -/
def safeSettle {α β : Type} (st : SettleState α β) (a : SettleAttempt α β) :
    SettleState α β :=
  if st.settled then st
  else { settled := true, delivered := st.delivered ++ [a] }

/-- Run a whole sequence of termination triggers (stdout close, process
exit, spawn error, cancellation, ... in whatever order they fire) against a
fresh invocation. -/
def runTriggers {α β : Type} (attempts : List (SettleAttempt α β)) :
    SettleState α β :=
  attempts.foldl safeSettle { settled := false, delivered := [] }

/-! ## Line reassembly

`child.stdout.on("data")` does `buffer += data.toString()`, splits on
`"\n"`, pops the last piece back into `buffer`; the `close` handler treats
a non-blank leftover buffer as one final line.  `data` is a byte `Buffer`
and `toString()` decodes each chunk independently as UTF-8 (invalid or
truncated sequences become U+FFFD), which is modelled by `utf8DecodeChunk`
below. -/

/-- `s.split(sep)` for a one-character separator, on character lists. -/
def splitOnChar (sep : Char) : List Char → List (List Char)
  | [] => [[]]
  | c :: cs =>
    match splitOnChar sep cs with
    | [] => [[c]]
    | h :: t => if c = sep then [] :: h :: t else (c :: h) :: t

/-- Decoder state for one `Buffer.toString("utf8")` call (WHATWG UTF-8
decode, which Node follows: malformed input becomes U+FFFD). -/
structure Utf8State where
  needed : Nat
  seen : Nat
  codepoint : Nat
  lower : Nat
  upper : Nat

/-- Fresh decoder state. -/
def utf8Init : Utf8State := ⟨0, 0, 0, 0x80, 0xBF⟩

/-- The replacement character U+FFFD. -/
def replChar : Char := Char.ofNat 0xFFFD

/-- Classify a byte arriving with no multi-byte sequence pending: either an
emitted character, the start of a sequence, or U+FFFD for an invalid lead
byte. -/
def utf8Start (b : Nat) : List Char × Utf8State :=
  if b ≤ 0x7F then ([Char.ofNat b], utf8Init)
  else if 0xC2 ≤ b ∧ b ≤ 0xDF then ([], ⟨1, 0, b % 0x20, 0x80, 0xBF⟩)
  else if 0xE0 ≤ b ∧ b ≤ 0xEF then
    ([], ⟨2, 0, b % 0x10, if b = 0xE0 then 0xA0 else 0x80,
          if b = 0xED then 0x9F else 0xBF⟩)
  else if 0xF0 ≤ b ∧ b ≤ 0xF4 then
    ([], ⟨3, 0, b % 0x8, if b = 0xF0 then 0x90 else 0x80,
          if b = 0xF4 then 0x8F else 0xBF⟩)
  else ([replChar], utf8Init)

/-- WHATWG UTF-8 decoding of a byte list; a sequence left incomplete at the
end of the list becomes U+FFFD (each `Buffer.toString()` call flushes). -/
def utf8Decode : Utf8State → List Nat → List Char
  | st, [] => if st.needed ≠ 0 then [replChar] else []
  | st, b :: bs =>
    if st.needed = 0 then
      let (out, st') := utf8Start b
      out ++ utf8Decode st' bs
    else if st.lower ≤ b ∧ b ≤ st.upper then
      let cp := st.codepoint * 64 + b % 0x40
      if st.seen + 1 = st.needed then Char.ofNat cp :: utf8Decode utf8Init bs
      else utf8Decode ⟨st.needed, st.seen + 1, cp, 0x80, 0xBF⟩ bs
    else
      let (out, st') := utf8Start b
      replChar :: (out ++ utf8Decode st' bs)

/-- `data.toString()` on one stdout chunk. -/
def utf8DecodeChunk (bytes : List Nat) : List Char :=
  utf8Decode utf8Init bytes

/-- One firing of the stdout data handler, already at text level:
`buffer += chunk; const lines = buffer.split("\n"); buffer = lines.pop() || "";`
returns the complete lines handed to the parse loop and the new buffer. -/
def dataStep (st : List (List Char) × List Char) (chunk : List Char) :
    List (List Char) × List Char :=
  let parts := splitOnChar '\n' (st.2 ++ chunk)
  (st.1 ++ parts.dropLast, parts.getLastD [])

/-- One firing of the stdout data handler on a raw byte chunk. -/
def dataStepBytes (st : List (List Char) × List Char) (chunk : List Nat) :
    List (List Char) × List Char :=
  dataStep st (utf8DecodeChunk chunk)

/-- All complete lines produced by a run of the operation: fold the data
handler over the byte chunks, then apply the flush of the close handler, which
treats a non-blank leftover buffer as one final line. -/
def reassembledLines (chunks : List (List Nat)) : List (List Char) :=
  let r := chunks.foldl dataStepBytes ([], [])
  if (r.2.all jsIsWs : Bool) then r.1 else r.1 ++ [r.2]

/-! ## Event classification

Each complete line is skipped when blank, otherwise `JSON.parse`d inside
`try`/`catch`: on success the event is pushed onto `events` and, for an
`item.completed` event whose item is an `agent_message` with truthy `text`
(per the declared `CodexItem` interface, `text?: string`, truthy means
present and non-empty), `lastMessage` is overwritten; on parse failure the
line is silently dropped.  `JSON.parse` is a platform builtin and is passed
in as `parse : String → Option Json` (`none` models a thrown
`SyntaxError`); the `try`/`catch` makes the handler total. -/

/-- The mutable per-invocation accumulator: the ordered `events` array and
the `lastMessage` string. -/
structure OpState where
  events : List Json
  lastMessage : String

/-- The `item.completed` / `agent_message` extraction shared by the data
handler and the close handler: overwrite `lastMessage` when the event is an
`item.completed` whose `item.type` is `"agent_message"` and whose
`item.text` is a non-empty string. -/
def updateLastMessage (prev : String) (e : Json) : String :=
  match jGet e "type", jGet e "item" with
  | some (.str "item.completed"), some item =>
    match jGet item "type", jGet item "text" with
    | some (.str "agent_message"), some (.str txt) =>
      if txt ≠ "" then txt else prev
    | _, _ => prev
  | _, _ => prev

/-- Process one complete line: skip blank lines, otherwise parse and on
success push the event and update `lastMessage`. -/
def processLine (parse : String → Option Json) (st : OpState) (line : String) :
    OpState :=
  if jsIsBlank line then st
  else
    match parse line with
    | none => st
    | some e =>
      { events := st.events ++ [e],
        lastMessage := updateLastMessage st.lastMessage e }

/-- The `for (const line of lines)` loop of the data handler. -/
def processLines (parse : String → Option Json) (st : OpState)
    (lines : List String) : OpState :=
  lines.foldl (processLine parse) st

/-! ## Final result synthesis (the `close` handler) -/

/-- The `CodexDetails` record attached to the tool result. -/
structure CodexDetails where
  events : List Json
  exitCode : Option Int
  streaming : Bool
  lastMessage : Option String
  error : Option String

/-- The value passed to `resolve`: rendered content text plus details. -/
structure ToolResult where
  contentText : String
  details : CodexDetails

/-- `lastMessage || alt` (a string is truthy iff non-empty). -/
def strOr (s alt : String) : String :=
  if s = "" then alt else s

/-- Result synthesis in the `close` handler (after the final buffer flush):
`wasAborted = signal?.aborted`, `hasError = code !== 0 && code !== null`,
then the aborted / failed / succeeded result text and the matching `error`
tag. -/
def buildCloseResult (wasAborted : Bool) (code : Option Int)
    (events : List Json) (lastMessage stderr : String) : ToolResult :=
  let hasError : Bool := match code with
    | some c => c != 0
    | none => false
  let resultText :=
    if wasAborted then
      "Codex execution aborted.\n\nPartial output:\n" ++
        strOr lastMessage "(no output)"
    else if hasError then
      "Codex exited with code " ++ toString (code.getD 0) ++
        ".\n\nStderr:\n" ++ strOr stderr "(no stderr)" ++
        "\n\nOutput:\n" ++ strOr lastMessage "(no output)"
    else
      strOr lastMessage "(Codex completed with no message output)"
  { contentText := resultText,
    details :=
      { events := events, exitCode := code, streaming := false,
        lastMessage := some lastMessage,
        error :=
          if wasAborted then some "aborted"
          else if hasError then some stderr else none } }

/-! ## Credential helpers

The auth module reads `~/.codex/auth.json`, decodes the `exp` claim of the
access token, refreshes through the OAuth token endpoint when the token
expires within a leeway window, merges the response back into the document
in place and persists it atomically.  File I/O, `fetch`, `Date.now()`,
`JSON.parse`/`stringify` and `Buffer` base64 decoding are platform effects
and enter the model as explicit inputs; every check and transformation
written in the repository is translated below. -/

/-- `base64UrlDecodeToUtf8`: normalise base64url to base64, pad with
`"===".slice((len + 3) % 4)`, then hand off to the platform base64 decoder
(`Buffer.from(_, "base64").toString("utf8")`, passed as `b64`). -/
def base64UrlDecodeToUtf8 (b64 : String → String) (data : String) : String :=
  let normalized :=
    data.map fun c => if c = '-' then '+' else if c = '_' then '/' else c
  let padded := normalized ++ "===".drop ((normalized.length + 3) % 4)
  b64 padded

/-- `extractJwtExpMs`: split the token on `"."`; three segments with a
non-empty middle are required; the decoded middle must `JSON.parse` to a
record whose `exp` is a positive number, which is scaled to milliseconds.
Any failure yields `none` ("unknown expiry"). -/
def extractJwtExpMs (b64 : String → String) (parse : String → Option Json)
    (jwt : String) : Option Int :=
  let parts := splitOnChar '.' jwt.toList
  if parts.length ≠ 3 then none
  else
    let payloadB64 := String.mk (parts.getD 1 [])
    if payloadB64 = "" then none
    else
      match parse (base64UrlDecodeToUtf8 b64 payloadB64) with
      | none => none
      | some payload =>
        if isRecord payload then
          match jGet payload "exp" with
          | some (.num e) => if e > 0 then some (e * 1000) else none
          | _ => none
        else none

/-- `DEFAULT_REFRESH_LEEWAY_SECONDS`. -/
def DEFAULT_REFRESH_LEEWAY_SECONDS : Int := 120

/-- What the model sees of the `fetch` response of the refresh exchange:
`resp.ok`, `resp.status` and the body text. -/
structure HttpResponse where
  ok : Bool
  status : Nat
  text : String

/-- The hard failures `refreshTokens` can throw: the explicit
non-success-status error, the `SyntaxError` escaping `JSON.parse(text)`,
the non-object-JSON error and the missing-`access_token` error. -/
inductive RefreshError where
  | httpError (status : Nat) (text : String) : RefreshError
  | invalidJson : RefreshError
  | nonObjectJson : RefreshError
  | missingAccessToken : RefreshError
deriving DecidableEq

/-- The `TokenRefreshResponse` record `refreshTokens` builds on success. -/
structure TokenRefreshResponse where
  access_token : String
  refresh_token : Option String
  id_token : Option String
  expires_in : Option Int
  token_type : Option String
deriving DecidableEq

/-- `refreshTokens`, as a function of the response the token endpoint
returned (the request itself: form body with client id, grant type
`refresh_token`, refresh token and fixed scope, is outbound I/O). -/
def refreshTokensM (parse : String → Option Json) (resp : HttpResponse) :
    Except RefreshError TokenRefreshResponse :=
  if ¬resp.ok then .error (.httpError resp.status resp.text)
  else
    match parse resp.text with
    | none => .error .invalidJson
    | some j =>
      match j with
      | .obj fields =>
        match getOptionalString fields "access_token" with
        | none => .error .missingAccessToken
        | some accessToken =>
          .ok
            { access_token := accessToken,
              refresh_token := getOptionalString fields "refresh_token",
              id_token := getOptionalString fields "id_token",
              expires_in :=
                match lookupField fields "expires_in" with
                | some (.num n) => if n > 0 then some n else none
                | _ => none,
              token_type := getOptionalString fields "token_type" }
      | _ => .error .nonObjectJson

/-- The `CodexCliAuth` record returned by the refreshing variant. -/
structure CodexCliAuth where
  accessToken : String
  refreshToken : Option String
  idToken : Option String
  expiresAtMs : Option Int
deriving DecidableEq

/-- The in-place update of the token block on a successful refresh: assign
`tokens.access_token` and `tokens.refresh_token`, and `tokens.id_token`
only when a next ID token exists; every other key is untouched. -/
def mergedTokens (tokenFields : List (String × Json))
    (nextAccessToken nextRefreshToken : String) (nextIdToken : Option String) :
    List (String × Json) :=
  let t1 := setField tokenFields "access_token" (.str nextAccessToken)
  let t2 := setField t1 "refresh_token" (.str nextRefreshToken)
  match nextIdToken with
  | some idt => setField t2 "id_token" (.str idt)
  | none => t2

/-- The document after the in-place merge: the updated token block put back
under `tokens` (aliasing: the mutation happened through the live `tokens`
reference) and the `last_refresh` stamp. -/
def mergeRefreshed (fileFields tokenFields : List (String × Json))
    (nextAccessToken nextRefreshToken : String) (nextIdToken : Option String)
    (nowIso : String) : List (String × Json) :=
  setField (setField fileFields "tokens"
      (.obj (mergedTokens tokenFields nextAccessToken nextRefreshToken
        nextIdToken)))
    "last_refresh" (.str nowIso)

/-- The observable outcome of one `getCodexCliAuth` call: the value
returned or the error thrown, whether the refresh exchange was attempted
(a network call happened), and the document written back to disk, if any. -/
structure AuthRun where
  result : Except RefreshError (Option CodexCliAuth)
  refreshAttempted : Bool
  written : Option Json

/-- The refreshing `getCodexCliAuth`, as a function of the parsed auth
file (`none` models an unreadable or unparsable file), `Date.now()`, the
ISO timestamp used for `last_refresh`, the options (defaults applied as in
the source) and the refresh-exchange response. -/
def getCodexCliAuthM (b64 : String → String) (parse : String → Option Json)
    (file : Option Json) (now : Int) (nowIso : String)
    (refreshLeewaySeconds : Option Int) (writeBack : Option Bool)
    (resp : HttpResponse) : AuthRun :=
  let leeway := refreshLeewaySeconds.getD DEFAULT_REFRESH_LEEWAY_SECONDS
  let wb := writeBack.getD true
  match file with
  | none => ⟨.ok none, false, none⟩
  | some (.obj fileFields) =>
    match lookupField fileFields "tokens" with
    | some (.obj tokenFields) =>
      match getOptionalString tokenFields "access_token" with
      | none => ⟨.ok none, false, none⟩
      | some accessToken =>
        let refreshToken := getOptionalString tokenFields "refresh_token"
        let idToken := getOptionalString tokenFields "id_token"
        let expiresAtMs := extractJwtExpMs b64 parse accessToken
        let isExpiringSoon : Bool :=
          match expiresAtMs with
          | some e => decide (e - now ≤ max 0 leeway * 1000)
          | none => false
        match isExpiringSoon, refreshToken with
        | true, some rt =>
          (match refreshTokensM parse resp with
          | .error err => ⟨.error err, true, none⟩
          | .ok refreshed =>
            let nextAccessToken := refreshed.access_token
            let nextRefreshToken := refreshed.refresh_token.getD rt
            let nextIdToken :=
              match refreshed.id_token with
              | some x => some x
              | none => idToken
            let newFile := Json.obj (mergeRefreshed fileFields tokenFields
              nextAccessToken nextRefreshToken nextIdToken nowIso)
            ⟨.ok (some
                { accessToken := nextAccessToken,
                  refreshToken := some nextRefreshToken,
                  idToken := nextIdToken,
                  expiresAtMs := extractJwtExpMs b64 parse nextAccessToken }),
              true, if wb then some newFile else none⟩)
        | _, _ =>
          ⟨.ok (some
              { accessToken := accessToken, refreshToken := refreshToken,
                idToken := idToken, expiresAtMs := expiresAtMs }),
            false, none⟩
    | _ => ⟨.ok none, false, none⟩
  | some _ => ⟨.ok none, false, none⟩

/-- The `CodexCliAuth` record of the read-only variant. -/
structure CodexCliAuthRO where
  accessToken : String
  expiresAtMs : Option Int
deriving DecidableEq

/-- The read-only `getCodexCliAuth`: no refresh, no writeback; it rejects
the credential only when the decoded expiry is known and already past. -/
def roGetCodexCliAuthM (b64 : String → String)
    (parse : String → Option Json) (file : Option Json) (now : Int) :
    Option CodexCliAuthRO :=
  match file with
  | none => none
  | some (.obj fileFields) =>
    match lookupField fileFields "tokens" with
    | some (.obj tokenFields) =>
      match getOptionalString tokenFields "access_token" with
      | none => none
      | some accessToken =>
        let expiresAtMs := extractJwtExpMs b64 parse accessToken
        match expiresAtMs with
        | some e => if e ≤ now then none else some ⟨accessToken, some e⟩
        | none => some ⟨accessToken, none⟩
    | _ => none
  | some _ => none

/-- The persistence plan of `writeJsonFile`: the directory created, the
uniquely named temporary file written and the rename over the target.
`JSON.stringify(_, null, 2)`, `path.dirname`, `process.pid` and
`Math.random().toString(16).slice(2)` are platform inputs. -/
structure WritePlan where
  mkdirPath : String
  mkdirMode : Nat
  mkdirRecursive : Bool
  tmpPath : String
  contents : String
  tmpMode : Nat
  renameFrom : String
  renameTo : String
deriving DecidableEq

/-- `writeJsonFile`. -/
def writeJsonFile (stringify : Json → String) (dirname : String → String)
    (pid : Nat) (randSuffix : String) (path : String) (data : Json) :
    WritePlan :=
  let tmpPath := path ++ ".tmp-" ++ toString pid ++ "-" ++ randSuffix
  { mkdirPath := dirname path, mkdirMode := 0o700, mkdirRecursive := true,
    tmpPath := tmpPath, contents := stringify data ++ "\n",
    tmpMode := 0o600, renameFrom := tmpPath, renameTo := path }

/-! ## Fixtures used by concrete instances and witnesses -/

/-- A modelled `JSON.parse` mapping the decoded payload text `"payload"` to
a record whose `exp` claim is `n` (seconds since epoch). -/
def expParse (n : Int) : String → Option Json :=
  fun s => if s = "payload" then some (.obj [("exp", .num n)]) else none

/-- A modelled base64 decoder sending every input to `"payload"`. -/
def expB64 : String → String := fun _ => "payload"

/-- Token block of the auth-file fixture: a well-formed JWT-shaped access
token, a refresh token and an unrelated extra key. -/
def tokensFixture : List (String × Json) :=
  [("access_token", .str "h.p.s"), ("refresh_token", .str "rt"),
   ("custom_flag", .bool true)]

/-- Auth-file fixture with an unrecognized sibling key. -/
def authFileFixture : List (String × Json) :=
  [("tokens", .obj tokensFixture), ("other", .num 7)]

/-- A modelled `JSON.parse` for a successful refresh run: the decoded JWT
payload text `"payload"` and the refresh-response body `"resp"`. -/
def refreshParse : String → Option Json := fun s =>
  if s = "payload" then some (.obj [("exp", .num 10)])
  else if s = "resp" then
    some (.obj [("access_token", .str "newtok"), ("id_token", .str "nid")])
  else none

/-! # Theorems -/

theorem foldl_safeSettle_of_settled {α β : Type}
    (l : List (SettleAttempt α β)) (st : SettleState α β)
    (h : st.settled = true) : l.foldl safeSettle st = st := by
  induction l with
  | nil => rfl
  | cons a l ih => simp [List.foldl_cons, safeSettle, h, ih]

/-- Claim C1: for every invocation, exactly one settlement is delivered to
the promise, whatever termination triggers fire and in whatever order: the
first attempt wins and every later `safeResolve`/`safeReject` call has no
effect on the delivered list. -/
theorem C1_settlement_exactly_once {α β : Type}
    (attempts : List (SettleAttempt α β)) (h : attempts ≠ []) :
    (runTriggers attempts).settled = true ∧
    (runTriggers attempts).delivered = [attempts.head h] ∧
    (runTriggers attempts).delivered.length = 1 := by
  obtain ⟨a, rest, rfl⟩ : ∃ a rest, attempts = a :: rest := by
    cases attempts with
    | nil => exact absurd rfl h
    | cons a r => exact ⟨a, r, rfl⟩
  have hstep : safeSettle ({ settled := false, delivered := [] } :
      SettleState α β) a = { settled := true, delivered := [a] } := by
    simp [safeSettle]
  unfold runTriggers
  rw [List.foldl_cons, hstep, foldl_safeSettle_of_settled _ _ rfl]
  exact ⟨rfl, rfl, rfl⟩

/-- Closed instance of C1: three competing triggers, first wins. -/
theorem C1_settlement_witness :
    (runTriggers [SettleAttempt.resolve (1 : Nat),
        SettleAttempt.reject "spawn failure",
        SettleAttempt.resolve 2]).settled = true ∧
    (runTriggers [SettleAttempt.resolve (1 : Nat),
        SettleAttempt.reject "spawn failure",
        SettleAttempt.resolve 2]).delivered = [SettleAttempt.resolve 1] ∧
    (runTriggers [SettleAttempt.resolve (1 : Nat),
        SettleAttempt.reject "spawn failure",
        SettleAttempt.resolve 2]).delivered.length = 1 :=
  C1_settlement_exactly_once
    [SettleAttempt.resolve 1, SettleAttempt.reject "spawn failure",
     SettleAttempt.resolve 2] (by decide)

/-- Claim C3 (divergence witness): the same overall stdout byte stream
`C3 A9 0A` (the UTF-8 encoding of `"é\n"`) yields different line sequences
depending on where the chunk boundary falls, because each chunk is decoded
independently: delivered in one chunk the single line is `é`, while split
inside the multi-byte character it is two U+FFFD replacement characters. -/
theorem C3_multibyte_chunk_boundary_divergence :
    reassembledLines [[0xC3], [0xA9, 0x0A]] ≠
      reassembledLines [[0xC3, 0xA9, 0x0A]] ∧
    reassembledLines [[0xC3, 0xA9, 0x0A]] = [[Char.ofNat 0xE9]] ∧
    reassembledLines [[0xC3], [0xA9, 0x0A]] = [[replChar, replChar]] := by
  refine ⟨by decide, rfl, rfl⟩

/-- Claim C7: when the close handler observes the cancellation flag the
outcome is the aborted shape (error tag `"aborted"`, partial last message
retained) for every exit code; only without cancellation does a non-zero
exit code produce the failed outcome carrying the captured stderr text. -/
theorem C7_cancellation_precedence (code : Option Int) (events : List Json)
    (lastMessage stderr : String) :
    ((buildCloseResult true code events lastMessage stderr).details.error =
        some "aborted" ∧
      (buildCloseResult true code events lastMessage stderr).contentText =
        "Codex execution aborted.\n\nPartial output:\n" ++
          strOr lastMessage "(no output)" ∧
      (buildCloseResult true code events lastMessage stderr).details.lastMessage
        = some lastMessage) ∧
    (∀ c : Int, c ≠ 0 →
      (buildCloseResult false (some c) events lastMessage stderr).details.error
          = some stderr ∧
      (buildCloseResult false (some c) events lastMessage stderr).contentText =
        "Codex exited with code " ++ toString c ++ ".\n\nStderr:\n" ++
          strOr stderr "(no stderr)" ++ "\n\nOutput:\n" ++
          strOr lastMessage "(no output)") := by
  refine ⟨⟨rfl, rfl, rfl⟩, ?_⟩
  intro c hc
  constructor <;> simp [buildCloseResult, hc]

/-- Closed instance of C7: cancellation observed while the process also
exited 1 still yields the aborted error tag; without cancellation, exit 1
carries stderr. -/
theorem C7_cancellation_witness :
    (buildCloseResult true (some 1) [] "partial" "boom").details.error =
      some "aborted" ∧
    (buildCloseResult false (some 1) [] "partial" "boom").details.error =
      some "boom" :=
  ⟨(C7_cancellation_precedence (some 1) [] "partial" "boom").1.1,
   ((C7_cancellation_precedence (some 1) [] "partial" "boom").2 1
      (by decide)).1⟩

/-- Claim C10: a `close` with a `null` exit code and no cancellation
settles with the success shape: no error tag, `exitCode` null, result text
the last captured message or the placeholder. -/
theorem C10_null_exit_success_shape (events : List Json)
    (lastMessage stderr : String) :
    (buildCloseResult false none events lastMessage stderr).details.error =
      none ∧
    (buildCloseResult false none events lastMessage stderr).details.exitCode =
      none ∧
    (buildCloseResult false none events lastMessage stderr).contentText =
      strOr lastMessage "(Codex completed with no message output)" ∧
    (buildCloseResult false none events lastMessage stderr).details.streaming =
      false :=
  ⟨rfl, rfl, rfl, rfl⟩

/-- Claim C8: for every complete line handed to the classifier, a line that
parses as JSON appends exactly one event, in line order, and a line whose
parse fails appends nothing; the handler is a total function (the
`try`/`catch` keeps any parse failure from escaping).  The hypothesis
records that blank lines (which the loop skips before parsing) never parse
as JSON, as with the real `JSON.parse`. -/
theorem C8_classifier_one_event_per_json_line (parse : String → Option Json)
    (lines : List String) (st : OpState)
    (hblank : ∀ l, jsIsBlank l = true → parse l = none) :
    (processLines parse st lines).events = st.events ++ lines.filterMap parse
    := by
  induction lines generalizing st with
  | nil => simp [processLines]
  | cons l ls ih =>
    have h1 : processLines parse st (l :: ls) =
        processLines parse (processLine parse st l) ls := rfl
    rw [h1, ih]
    by_cases hb : jsIsBlank l
    · have hp := hblank l hb
      simp [processLine, hb, hp, List.filterMap_cons]
    · cases hp : parse l with
      | none => simp [processLine, hb, hp, List.filterMap_cons]
      | some e => simp [processLine, hb, hp, List.filterMap_cons]

/-- Closed instance of C8: one valid JSON line, one blank line, one
malformed line produce exactly one event. -/
theorem C8_classifier_witness :
    (processLines (fun s => if s = "\x7b\x7d" then some (Json.obj []) else none)
      { events := [], lastMessage := "" }
      ["\x7b\x7d", " ", "oops"]).events = [Json.obj []] := by
  have h := C8_classifier_one_event_per_json_line
    (fun s => if s = "\x7b\x7d" then some (Json.obj []) else none)
    ["\x7b\x7d", " ", "oops"] { events := [], lastMessage := "" }
    (by
      intro l hl
      by_cases he : l = "\x7b\x7d"
      · subst he; exact absurd hl (by decide)
      · simp [he])
  exact h.trans rfl

/-- Claim C9 as stated is false on the code: an `item.completed` event
whose item is an `agent_message` with text `""` does not overwrite the
latest-message field (the handler requires a truthy `text`), so the field
keeps its previous value `"prev"` instead of becoming `""`. -/
theorem C9_empty_text_counterexample :
    updateLastMessage "prev" (Json.obj [("type", Json.str "item.completed"),
      ("item", Json.obj [("type", Json.str "agent_message"),
        ("text", Json.str "")])]) = "prev" ∧ ("prev" : String) ≠ "" :=
  ⟨rfl, by decide⟩

/-- Claim C9 (amended): for every parsed `item.completed` event whose item
kind is `agent_message` and whose item text is a string, the
latest-message field is overwritten with that text regardless of the
previous value whenever the text is non-empty, and is left unchanged when
the text is empty. -/
theorem C9_agent_message_overwrite (prev : String) (e item : Json)
    (txt : String)
    (htype : jGet e "type" = some (.str "item.completed"))
    (hitem : jGet e "item" = some item)
    (hkind : jGet item "type" = some (.str "agent_message"))
    (htext : jGet item "text" = some (.str txt)) :
    updateLastMessage prev e = if txt = "" then prev else txt := by
  simp only [updateLastMessage, htype, hitem, hkind, htext]
  by_cases h : txt = "" <;> simp [h]

/-- Closed instance of the amended C9: a non-empty agent message text
overwrites the previous value. -/
theorem C9_agent_message_overwrite_witness :
    updateLastMessage "old" (Json.obj [("type", Json.str "item.completed"),
      ("item", Json.obj [("type", Json.str "agent_message"),
        ("text", Json.str "hi")])]) = "hi" := by
  have h := C9_agent_message_overwrite "old"
    (Json.obj [("type", Json.str "item.completed"),
      ("item", Json.obj [("type", Json.str "agent_message"),
        ("text", Json.str "hi")])])
    (Json.obj [("type", Json.str "agent_message"), ("text", Json.str "hi")])
    "hi" rfl rfl rfl rfl
  exact h.trans (by decide)

/-- Claim C2 as stated is false on the code: on an access token whose
decoded expiry is unknown (here `"x"`, which does not have three
dot-separated segments), the read-only variant does not treat the token as
already invalid — it returns the credential rather than no credential.
(The expiry guard `expiresAtMs !== undefined && expiresAtMs <= Date.now()`
only rejects a known, past expiry.) -/
theorem C2_unknown_expiry_counterexample :
    extractJwtExpMs (fun _ => "") (fun _ => none) "x" = none ∧
    roGetCodexCliAuthM (fun _ => "") (fun _ => none)
      (some (Json.obj [("tokens",
        Json.obj [("access_token", Json.str "x")])])) 0 =
      some { accessToken := "x", expiresAtMs := none } :=
  ⟨rfl, rfl⟩

/-- Claim C2 (amended): when the decoded expiry of the access token is
unknown, the refreshing variant treats the token as not expiring soon and
performs no refresh and no write, returning the credential unchanged — and
the read-only variant likewise treats the token as still valid and returns
the credential; it returns no credential only when the expiry is known and
already past. -/
theorem C2_unknown_expiry_policies (b64 : String → String)
    (parse : String → Option Json)
    (fileFields tokenFields : List (String × Json)) (accessToken : String)
    (now : Int) (nowIso : String) (leeway : Option Int) (wb : Option Bool)
    (resp : HttpResponse)
    (htok : lookupField fileFields "tokens" = some (.obj tokenFields))
    (hacc : getOptionalString tokenFields "access_token" = some accessToken)
    (hexp : extractJwtExpMs b64 parse accessToken = none) :
    getCodexCliAuthM b64 parse (some (.obj fileFields)) now nowIso leeway wb
        resp =
      { result := .ok (some
          { accessToken := accessToken,
            refreshToken := getOptionalString tokenFields "refresh_token",
            idToken := getOptionalString tokenFields "id_token",
            expiresAtMs := none }),
        refreshAttempted := false, written := none } ∧
    roGetCodexCliAuthM b64 parse (some (.obj fileFields)) now =
      some { accessToken := accessToken, expiresAtMs := none } := by
  constructor
  · simp only [getCodexCliAuthM, htok, hacc, hexp]
  · simp only [roGetCodexCliAuthM, htok, hacc, hexp]

/-- Closed instance of the amended C2: a non-JWT access token in both
variants. -/
theorem C2_unknown_expiry_witness :
    getCodexCliAuthM (fun _ => "") (fun _ => none)
      (some (Json.obj [("tokens",
        Json.obj [("access_token", Json.str "x"),
          ("refresh_token", Json.str "rt")])])) 0 "iso" none none
      ⟨true, 200, "body"⟩ =
      { result := .ok (some
          { accessToken := "x", refreshToken := some "rt", idToken := none,
            expiresAtMs := none }),
        refreshAttempted := false, written := none } ∧
    roGetCodexCliAuthM (fun _ => "") (fun _ => none)
      (some (Json.obj [("tokens",
        Json.obj [("access_token", Json.str "x"),
          ("refresh_token", Json.str "rt")])])) 0 =
      some { accessToken := "x", expiresAtMs := none } := by
  have h := C2_unknown_expiry_policies (fun _ => "") (fun _ => none)
    [("tokens", Json.obj [("access_token", Json.str "x"),
      ("refresh_token", Json.str "rt")])]
    [("access_token", Json.str "x"), ("refresh_token", Json.str "rt")]
    "x" 0 "iso" none none ⟨true, 200, "body"⟩ rfl rfl rfl
  exact ⟨h.1.trans rfl, h.2⟩

/-- Claim C4: with default options, the refresh exchange is attempted
exactly when the decoded expiry is known, at most the leeway window away
(`expiry − leeway ≤ now`), and a refresh token is present; when no refresh
happens the existing credential is returned unchanged with no network call
and no file write; the default leeway is 120 seconds; an expiry 10 seconds
ahead triggers a refresh and an expiry 1000 seconds ahead does not. -/
theorem C4_refresh_trigger (b64 : String → String)
    (parse : String → Option Json)
    (fileFields tokenFields : List (String × Json)) (accessToken : String)
    (now : Int) (nowIso : String) (resp : HttpResponse)
    (htok : lookupField fileFields "tokens" = some (.obj tokenFields))
    (hacc : getOptionalString tokenFields "access_token" = some accessToken) :
    ((getCodexCliAuthM b64 parse (some (.obj fileFields)) now nowIso none none
          resp).refreshAttempted = true ↔
      ((∃ e, extractJwtExpMs b64 parse accessToken = some e ∧
          e - now ≤ max 0 DEFAULT_REFRESH_LEEWAY_SECONDS * 1000) ∧
        (getOptionalString tokenFields "refresh_token").isSome = true)) ∧
    ((getCodexCliAuthM b64 parse (some (.obj fileFields)) now nowIso none none
          resp).refreshAttempted = false →
      getCodexCliAuthM b64 parse (some (.obj fileFields)) now nowIso none none
          resp =
        { result := .ok (some
            { accessToken := accessToken,
              refreshToken := getOptionalString tokenFields "refresh_token",
              idToken := getOptionalString tokenFields "id_token",
              expiresAtMs := extractJwtExpMs b64 parse accessToken }),
          refreshAttempted := false, written := none }) ∧
    DEFAULT_REFRESH_LEEWAY_SECONDS = 120 ∧
    (getCodexCliAuthM expB64 (expParse 10) (some (.obj authFileFixture)) 0
        "iso" none none ⟨false, 400, "denied"⟩).refreshAttempted = true ∧
    (getCodexCliAuthM expB64 (expParse 1000) (some (.obj authFileFixture)) 0
        "iso" none none ⟨false, 400, "denied"⟩).refreshAttempted = false := by
  refine ⟨?_, ?_, rfl, rfl, rfl⟩ <;>
    simp only [getCodexCliAuthM, htok, hacc] <;>
    cases hexp : extractJwtExpMs b64 parse accessToken with
  | none =>
    cases hrt : getOptionalString tokenFields "refresh_token" <;>
      simp [hexp, hrt]
  | some e =>
    by_cases hle : e - now ≤ max 0 DEFAULT_REFRESH_LEEWAY_SECONDS * 1000
    · cases hrt : getOptionalString tokenFields "refresh_token" with
      | none => simp [hexp, hrt, hle]
      | some rt =>
        cases href : refreshTokensM parse resp <;>
          simp [hexp, hrt, hle, href] <;> linarith
    · cases hrt : getOptionalString tokenFields "refresh_token" <;>
        simp [hexp, hrt, hle] <;> linarith

/-- Closed instance of C4: the two leeway scenarios of the claim, plus a
no-refresh run returning the credential unchanged. -/
theorem C4_refresh_trigger_witness :
    (getCodexCliAuthM expB64 (expParse 10) (some (.obj authFileFixture)) 0
        "iso" none none ⟨false, 400, "denied"⟩).refreshAttempted = true ∧
    (getCodexCliAuthM expB64 (expParse 1000) (some (.obj authFileFixture)) 0
        "iso" none none ⟨false, 400, "denied"⟩).refreshAttempted = false ∧
    getCodexCliAuthM expB64 (expParse 1000) (some (.obj authFileFixture)) 0
        "iso" none none ⟨false, 400, "denied"⟩ =
      { result := .ok (some
          { accessToken := "h.p.s", refreshToken := some "rt", idToken := none,
            expiresAtMs := some 1000000 }),
        refreshAttempted := false, written := none } := by
  have h := C4_refresh_trigger expB64 (expParse 1000) authFileFixture
    tokensFixture "h.p.s" 0 "iso" ⟨false, 400, "denied"⟩ rfl rfl
  exact ⟨(C4_refresh_trigger expB64 (expParse 10) authFileFixture
      tokensFixture "h.p.s" 0 "iso" ⟨false, 400, "denied"⟩ rfl rfl).2.2.2.1,
    h.2.2.2.2, (h.2.1 (by decide)).trans rfl⟩

/-- Claim C5: a refresh exchange failing with a non-success HTTP status, a
body that is not valid JSON, a JSON body that is not an object, or a
response missing `access_token` makes `refreshTokens` throw a hard error;
`getCodexCliAuth` propagates that error instead of falling back to the
stale token, and nothing is written back, leaving the on-disk document
unchanged. -/
theorem C5_refresh_failure_hard_error (b64 : String → String)
    (parse : String → Option Json) (resp : HttpResponse)
    (fileFields tokenFields : List (String × Json)) (accessToken rt : String)
    (e now : Int) (nowIso : String) (leeway : Option Int) (wb : Option Bool)
    (htok : lookupField fileFields "tokens" = some (.obj tokenFields))
    (hacc : getOptionalString tokenFields "access_token" = some accessToken)
    (hrt : getOptionalString tokenFields "refresh_token" = some rt)
    (hexp : extractJwtExpMs b64 parse accessToken = some e)
    (hle : e - now ≤
      max 0 (leeway.getD DEFAULT_REFRESH_LEEWAY_SECONDS) * 1000) :
    (resp.ok = false →
      refreshTokensM parse resp = .error (.httpError resp.status resp.text)) ∧
    (resp.ok = true → parse resp.text = none →
      refreshTokensM parse resp = .error .invalidJson) ∧
    (∀ j, resp.ok = true → parse resp.text = some j → isRecord j = false →
      refreshTokensM parse resp = .error .nonObjectJson) ∧
    (∀ fs, resp.ok = true → parse resp.text = some (.obj fs) →
      getOptionalString fs "access_token" = none →
      refreshTokensM parse resp = .error .missingAccessToken) ∧
    (∀ err, refreshTokensM parse resp = .error err →
      getCodexCliAuthM b64 parse (some (.obj fileFields)) now nowIso leeway wb
          resp =
        { result := .error err, refreshAttempted := true, written := none })
    := by
  refine ⟨?_, ?_, ?_, ?_, ?_⟩
  · intro hok; simp [refreshTokensM, hok]
  · intro hok hparse; simp [refreshTokensM, hok, hparse]
  · intro j hok hj hrec
    cases j <;> simp_all [refreshTokensM, isRecord]
  · intro fs hok hj hmiss; simp [refreshTokensM, hok, hj, hmiss]
  · intro err herr
    have hd : decide (e - now ≤
        max 0 (leeway.getD DEFAULT_REFRESH_LEEWAY_SECONDS) * 1000) = true :=
      decide_eq_true hle
    simp only [getCodexCliAuthM, htok, hacc, hrt, hexp, hd, herr]

/-- Closed instance of C5: an HTTP 400 refresh response is propagated as a
hard error and nothing is written. -/
theorem C5_refresh_failure_witness :
    refreshTokensM (expParse 10) ⟨false, 400, "denied"⟩ =
      .error (.httpError 400 "denied") ∧
    getCodexCliAuthM expB64 (expParse 10) (some (.obj authFileFixture)) 0
        "iso" none none ⟨false, 400, "denied"⟩ =
      { result := .error (.httpError 400 "denied"), refreshAttempted := true,
        written := none } := by
  have h := C5_refresh_failure_hard_error expB64 (expParse 10)
    ⟨false, 400, "denied"⟩ authFileFixture tokensFixture "h.p.s" "rt"
    10000 0 "iso" none none rfl rfl rfl rfl (by decide)
  have h1 := h.1 rfl
  exact ⟨h1, h.2.2.2.2 (.httpError 400 "denied") h1⟩

theorem lookupField_setField_self (fs : List (String × Json)) (k : String)
    (v : Json) : lookupField (setField fs k v) k = some v := by
  induction fs with
  | nil => simp [setField, lookupField]
  | cons p fs ih =>
    obtain ⟨k', v'⟩ := p
    by_cases h : k' = k
    · subst h; simp [setField, lookupField]
    · simp [setField, lookupField, h, ih]

theorem lookupField_setField_ne (fs : List (String × Json)) (k k' : String)
    (v : Json) (h : k' ≠ k) :
    lookupField (setField fs k v) k' = lookupField fs k' := by
  induction fs with
  | nil => simp [setField, lookupField, Ne.symm h]
  | cons p fs ih =>
    obtain ⟨k'', v''⟩ := p
    by_cases hk : k'' = k
    · subst hk
      simp [setField, lookupField, Ne.symm h]
    · simp [setField, lookupField, hk, ih]

theorem isSome_lookupField_setField (fs : List (String × Json))
    (k k' : String) (v : Json) (h : (lookupField fs k').isSome = true) :
    (lookupField (setField fs k v) k').isSome = true := by
  by_cases hk : k' = k
  · subst hk; simp [lookupField_setField_self]
  · rw [lookupField_setField_ne _ _ _ _ hk]; exact h

/-- Claim C6: a successful refresh writes back (with default options)
exactly the merged document; the merge preserves every top-level key and
every token-block key it does not write, updating only `access_token`,
`refresh_token` (falling back to the prior one when the response omits
it), `id_token` (similarly, and untouched when neither exists) and the
`last_refresh` stamp; persistence goes through a temporary file in the
same directory named from the process id and a random suffix, with
restrictive modes, then a rename over the target, after creating the
directory recursively with restrictive mode. -/
theorem C6_merge_frame_and_atomic_write (b64 : String → String)
    (parse : String → Option Json) (resp : HttpResponse)
    (fileFields tokenFields : List (String × Json)) (accessToken rt : String)
    (e : Int) (refreshed : TokenRefreshResponse) (now : Int) (nowIso : String)
    (leeway : Option Int)
    (htok : lookupField fileFields "tokens" = some (.obj tokenFields))
    (hacc : getOptionalString tokenFields "access_token" = some accessToken)
    (hrt : getOptionalString tokenFields "refresh_token" = some rt)
    (hexp : extractJwtExpMs b64 parse accessToken = some e)
    (hle : e - now ≤
      max 0 (leeway.getD DEFAULT_REFRESH_LEEWAY_SECONDS) * 1000)
    (href : refreshTokensM parse resp = .ok refreshed) :
    (getCodexCliAuthM b64 parse (some (.obj fileFields)) now nowIso leeway
        none resp).written =
      some (.obj (mergeRefreshed fileFields tokenFields
        refreshed.access_token (refreshed.refresh_token.getD rt)
        (match refreshed.id_token with
          | some x => some x
          | none => getOptionalString tokenFields "id_token") nowIso)) ∧
    (∀ na nr : String, ∀ nid : Option String, ∀ niso : String,
      (∀ k, k ≠ "tokens" → k ≠ "last_refresh" →
        lookupField (mergeRefreshed fileFields tokenFields na nr nid niso) k =
          lookupField fileFields k) ∧
      lookupField (mergeRefreshed fileFields tokenFields na nr nid niso)
          "last_refresh" = some (.str niso) ∧
      lookupField (mergeRefreshed fileFields tokenFields na nr nid niso)
          "tokens" = some (.obj (mergedTokens tokenFields na nr nid)) ∧
      (∀ k, k ≠ "access_token" → k ≠ "refresh_token" → k ≠ "id_token" →
        lookupField (mergedTokens tokenFields na nr nid) k =
          lookupField tokenFields k) ∧
      lookupField (mergedTokens tokenFields na nr nid) "access_token" =
        some (.str na) ∧
      lookupField (mergedTokens tokenFields na nr nid) "refresh_token" =
        some (.str nr) ∧
      (∀ idt, nid = some idt →
        lookupField (mergedTokens tokenFields na nr nid) "id_token" =
          some (.str idt)) ∧
      (nid = none →
        lookupField (mergedTokens tokenFields na nr nid) "id_token" =
          lookupField tokenFields "id_token") ∧
      (∀ k, (lookupField fileFields k).isSome = true →
        (lookupField (mergeRefreshed fileFields tokenFields na nr nid niso)
          k).isSome = true) ∧
      (∀ k, (lookupField tokenFields k).isSome = true →
        (lookupField (mergedTokens tokenFields na nr nid) k).isSome = true)) ∧
    (∀ stringify : Json → String, ∀ dirname : String → String,
      ∀ pid : Nat, ∀ rand path : String, ∀ data : Json,
      (writeJsonFile stringify dirname pid rand path data).tmpPath =
        path ++ ".tmp-" ++ toString pid ++ "-" ++ rand ∧
      (writeJsonFile stringify dirname pid rand path data).renameFrom =
        path ++ ".tmp-" ++ toString pid ++ "-" ++ rand ∧
      (writeJsonFile stringify dirname pid rand path data).renameTo = path ∧
      (writeJsonFile stringify dirname pid rand path data).mkdirPath =
        dirname path ∧
      (writeJsonFile stringify dirname pid rand path data).mkdirMode =
        0o700 ∧
      (writeJsonFile stringify dirname pid rand path data).mkdirRecursive =
        true ∧
      (writeJsonFile stringify dirname pid rand path data).tmpMode = 0o600 ∧
      (writeJsonFile stringify dirname pid rand path data).contents =
        stringify data ++ "\n") := by
  refine ⟨?_, ?_, ?_⟩
  · have hd : decide (e - now ≤
        max 0 (leeway.getD DEFAULT_REFRESH_LEEWAY_SECONDS) * 1000) = true :=
      decide_eq_true hle
    simp only [getCodexCliAuthM, htok, hacc, hrt, hexp, hd, href,
      Option.getD_none]
    simp
  · intro na nr nid niso
    refine ⟨?_, ?_, ?_, ?_, ?_, ?_, ?_, ?_, ?_, ?_⟩
    · intro k h1 h2
      unfold mergeRefreshed
      rw [lookupField_setField_ne _ _ _ _ h2,
        lookupField_setField_ne _ _ _ _ h1]
    · unfold mergeRefreshed
      rw [lookupField_setField_self]
    · unfold mergeRefreshed
      rw [lookupField_setField_ne _ _ _ _ (by decide),
        lookupField_setField_self]
    · intro k h1 h2 h3
      cases nid with
      | some idt =>
        simp only [mergedTokens]
        rw [lookupField_setField_ne _ _ _ _ h3,
          lookupField_setField_ne _ _ _ _ h2,
          lookupField_setField_ne _ _ _ _ h1]
      | none =>
        simp only [mergedTokens]
        rw [lookupField_setField_ne _ _ _ _ h2,
          lookupField_setField_ne _ _ _ _ h1]
    · cases nid with
      | some idt =>
        simp only [mergedTokens]
        rw [lookupField_setField_ne _ _ _ _ (by decide),
          lookupField_setField_ne _ _ _ _ (by decide),
          lookupField_setField_self]
      | none =>
        simp only [mergedTokens]
        rw [lookupField_setField_ne _ _ _ _ (by decide),
          lookupField_setField_self]
    · cases nid with
      | some idt =>
        simp only [mergedTokens]
        rw [lookupField_setField_ne _ _ _ _ (by decide),
          lookupField_setField_self]
      | none =>
        simp only [mergedTokens]
        rw [lookupField_setField_self]
    · intro idt hnid
      subst hnid
      simp only [mergedTokens]
      rw [lookupField_setField_self]
    · intro hnid
      subst hnid
      simp only [mergedTokens]
      rw [lookupField_setField_ne _ _ _ _ (by decide),
        lookupField_setField_ne _ _ _ _ (by decide)]
    · intro k hk
      unfold mergeRefreshed
      exact isSome_lookupField_setField _ _ _ _
        (isSome_lookupField_setField _ _ _ _ hk)
    · intro k hk
      cases nid with
      | some idt =>
        simp only [mergedTokens]
        exact isSome_lookupField_setField _ _ _ _
          (isSome_lookupField_setField _ _ _ _
            (isSome_lookupField_setField _ _ _ _ hk))
      | none =>
        simp only [mergedTokens]
        exact isSome_lookupField_setField _ _ _ _
          (isSome_lookupField_setField _ _ _ _ hk)
  · intro stringify dirname pid rand path data
    exact ⟨rfl, rfl, rfl, rfl, rfl, rfl, rfl, rfl⟩

/-- Closed instance of C6: a successful refresh run writes back the merged
fixture document; the unrecognized top-level key `other` and token-block
key `custom_flag` survive. -/
theorem C6_merge_frame_witness :
    (getCodexCliAuthM expB64 refreshParse (some (.obj authFileFixture)) 0
        "iso" none none ⟨true, 200, "resp"⟩).written =
      some (.obj (mergeRefreshed authFileFixture tokensFixture "newtok" "rt"
        (some "nid") "iso")) ∧
    lookupField (mergeRefreshed authFileFixture tokensFixture "newtok" "rt"
        (some "nid") "iso") "other" = some (.num 7) ∧
    lookupField (mergedTokens tokensFixture "newtok" "rt" (some "nid"))
        "custom_flag" = some (.bool true) ∧
    (writeJsonFile (fun _ => "doc") (fun _ => "/home/u/.codex") 41 "ab"
        "/home/u/.codex/auth.json" (Json.obj [])).tmpPath =
      "/home/u/.codex/auth.json.tmp-41-ab" := by
  have h := C6_merge_frame_and_atomic_write expB64 refreshParse
    ⟨true, 200, "resp"⟩ authFileFixture tokensFixture "h.p.s" "rt" 10000
    { access_token := "newtok", refresh_token := none,
      id_token := some "nid", expires_in := none, token_type := none }
    0 "iso" none rfl rfl rfl rfl (by decide) rfl
  have hb := h.2.1 "newtok" "rt" (some "nid") "iso"
  refine ⟨h.1, (hb.1 "other" (by decide) (by decide)).trans rfl,
    (hb.2.2.2.1 "custom_flag" (by decide) (by decide) (by decide)).trans rfl,
    (h.2.2 (fun _ => "doc") (fun _ => "/home/u/.codex") 41 "ab"
      "/home/u/.codex/auth.json" (Json.obj [])).1.trans (by decide)⟩

end PiMono
